import Mathlib

/-!
A verification development for the padel match counter
(`src/app/page.tsx`).  The match-state engine of that file is embedded
shallowly: the React component's pieces of state become explicit values,
each handler becomes a pure function from the previous state (plus the
nondeterministic inputs it reads, such as `Date.now()` or the answer of a
`window.confirm` dialog) to the next state, and the browser services
(`localStorage`, file reading) are modelled as explicit state components
and parameters.  JavaScript numbers occurring here are integers
(counters, scores, timestamps), embedded as `Nat`/`Int`.
-/

namespace Padel

/-- The two stat kinds of `StatEntry.stat` (`'winners' | 'unforced_errors'`). -/
inductive StatKind where
  | winners : StatKind
  | unforced_errors : StatKind
deriving DecidableEq, Repr

/-- `interface PlayerStats` (page.tsx lines 6-11). -/
structure PlayerStats where
  name : String
  winners : Nat
  unforced_errors : Nat
  score : Int
deriving DecidableEq, Repr

/-- `interface StatEntry` (page.tsx lines 13-18).  `timestamp` is the
`Date.now()` value, an integer number of milliseconds. -/
structure StatEntry where
  point : Nat
  playerIndex : Nat
  stat : StatKind
  timestamp : Nat
deriving DecidableEq, Repr

/-- `interface MatchState` (page.tsx lines 20-24). -/
structure MatchState where
  players : List PlayerStats
  isGameStarted : Bool
  statHistory : List StatEntry
deriving DecidableEq, Repr

/-- The initial `useState` value (page.tsx lines 27-31). -/
def emptyMatchState : MatchState :=
  { players := [], isGameStarted := false, statHistory := [] }

/-- `startMatch` (page.tsx lines 72-85): if every entered name is nonempty
after trimming, replace the state with four zeroed players built from the
trimmed names; otherwise the state is unchanged. -/
def startMatch (playerNames : List String) (prev : MatchState) : MatchState :=
  if playerNames.all (fun n => n.trim != "") then
    { players := playerNames.map (fun n =>
        { name := n.trim, winners := 0, unforced_errors := 0, score := 0 }),
      isGameStarted := true,
      statHistory := [] }
  else prev

/-- `incrementStat` (page.tsx lines 87-111).  `ts` is the `Date.now()`
value read inside the updater.  The computed-key update
`[stat]: player[stat] + 1` is rendered as the two conditionals on `stat`. -/
def incrementStat (playerIndex : Nat) (stat : StatKind) (ts : Nat)
    (prev : MatchState) : MatchState :=
  let statValue : Int := if stat = .winners then 2 else -1
  let newStatHistory := prev.statHistory ++
    [{ point := prev.statHistory.length + 1, playerIndex := playerIndex,
       stat := stat, timestamp := ts }]
  { prev with
    statHistory := newStatHistory,
    players := prev.players.mapIdx (fun index player =>
      if index = playerIndex then
        { player with
          winners := if stat = .winners then player.winners + 1 else player.winners,
          unforced_errors :=
            if stat = .unforced_errors then player.unforced_errors + 1
            else player.unforced_errors,
          score := player.score + statValue }
      else player) }

/-- The keyboard adapter's key map (page.tsx lines 51-60). -/
def keyMap (key : String) : Option (Nat × StatKind) :=
  if key == "1" then some (0, .winners)
  else if key == "2" then some (0, .unforced_errors)
  else if key == "3" then some (1, .winners)
  else if key == "4" then some (1, .unforced_errors)
  else if key == "5" then some (2, .winners)
  else if key == "6" then some (2, .unforced_errors)
  else if key == "7" then some (3, .winners)
  else if key == "8" then some (3, .unforced_errors)
  else none

/-- `handleKeyPress` (page.tsx lines 46-66): inert unless the game is
started; otherwise dispatches through `keyMap` to `incrementStat`. -/
def handleKeyPress (key : String) (ts : Nat) (s : MatchState) : MatchState :=
  if !s.isGameStarted then s
  else
    match keyMap key with
    | some (pi, st) => incrementStat pi st ts s
    | none => s

/-- `interface`-less record returned by `getTeamStats` (page.tsx 168-180). -/
structure TeamStats where
  winners : Nat
  unforced_errors : Nat
  score : Int
deriving DecidableEq, Repr

/-- `getTeamStats` (page.tsx lines 168-180).  The source reads
`matchState.players[playerIndex]` without a bounds check; every state the
component reaches has four players whenever `isGameStarted` is true, so
the `getD` default below is never consulted in any theorem of this file
(all of them assume reachability). -/
def getTeamStats (s : MatchState) (teamIndex : Nat) : TeamStats :=
  if !s.isGameStarted then { winners := 0, unforced_errors := 0, score := 0 }
  else
    let teamPlayers : List Nat := if teamIndex = 0 then [0, 1] else [2, 3]
    teamPlayers.foldl
      (fun total playerIndex =>
        let p := s.players.getD playerIndex
          { name := "", winners := 0, unforced_errors := 0, score := 0 }
        { winners := total.winners + p.winners,
          unforced_errors := total.unforced_errors + p.unforced_errors,
          score := total.score + p.score })
      { winners := 0, unforced_errors := 0, score := 0 }

/-- `resetMatch`'s confirmed branch resets the state to the empty one
(page.tsx line 115); the durable-store side is modelled further below. -/
def dfltPlayer : PlayerStats :=
  { name := "", winners := 0, unforced_errors := 0, score := 0 }

/-- The reachable states of the component: the initial empty state, a
valid `startMatch` transition (the Start button requires all four entered
names to be nonempty when trimmed, page.tsx line 263, and the form has
exactly four inputs), a scoring append while the game is started with a
player index in `[0,3]` (the only indices the buttons, page.tsx lines
315/321/342/348, and the keyboard adapter produce), and a confirmed
reset.  A successful import of an exported reachable state restores that
very state (theorem `export_import_roundtrip`), so it adds no states. -/
inductive Reachable : MatchState → Prop where
  | init : Reachable emptyMatchState
  | start (names : List String) (prev : MatchState)
      (hlen : names.length = 4)
      (hall : names.all (fun n => n.trim != "") = true)
      (hprev : Reachable prev) : Reachable (startMatch names prev)
  | increment (s : MatchState) (pi : Nat) (k : StatKind) (ts : Nat)
      (hs : Reachable s) (hstart : s.isGameStarted = true) (hpi : pi < 4) :
      Reachable (incrementStat pi k ts s)
  | reset (s : MatchState) (hs : Reachable s) : Reachable emptyMatchState

/-- One step of the chart's score replay (page.tsx lines 197-198):
`playerScores[entry.playerIndex] += entry.stat === 'winners' ? 2 : -1`.
`List.set` is a no-op out of range; every entry of a reachable log has
`playerIndex < 4`, matching the four-slot `playerScores` array. -/
def updScores (scores : List Int) (e : StatEntry) : List Int :=
  scores.set e.playerIndex
    (scores.getD e.playerIndex 0 + (if e.stat = .winners then 2 else -1))

/-- The chart's running scores after replaying a whole log from the
all-zero four-slot array (page.tsx line 184). -/
def replayScores (log : List StatEntry) : List Int :=
  log.foldl updScores [0, 0, 0, 0]

theorem mapIdx_getD {α : Type} (f : Nat → α → α) :
    ∀ (l : List α) (j : Nat) (d : α), j < l.length →
      (l.mapIdx f).getD j d = f j (l.getD j d) := by
  intro l
  induction l generalizing f with
  | nil => intro j d hj; simp at hj
  | cons a as ih =>
    intro j d hj
    rw [List.mapIdx_cons]
    cases j with
    | zero => simp
    | succ j =>
      simp only [List.getD_cons_succ]
      exact ih _ j d (by simpa using hj)

theorem foldl_updScores_length :
    ∀ (l : List StatEntry) (scores : List Int),
      (l.foldl updScores scores).length = scores.length := by
  intro l
  induction l with
  | nil => intro scores; rfl
  | cons e rest ih =>
    intro scores
    rw [List.foldl_cons, ih]
    simp [updScores]

theorem replayScores_length (l : List StatEntry) :
    (replayScores l).length = 4 :=
  foldl_updScores_length l _

/-- The state invariant maintained by every reachable state: four players
exactly when started, empty state when not started, nonempty names, the
score consistency `score = 2*winners - unforcedErrors`, and agreement of
the chart replay with the incrementally maintained scores. -/
def Inv (s : MatchState) : Prop :=
  (s.isGameStarted = true → s.players.length = 4) ∧
  (s.isGameStarted = false → s.players = [] ∧ s.statHistory = []) ∧
  (∀ p ∈ s.players,
    p.name ≠ "" ∧ p.score = 2 * (p.winners : Int) - (p.unforced_errors : Int)) ∧
  (∀ j : Nat, j < 4 →
    (replayScores s.statHistory).getD j 0 = (s.players.getD j dfltPlayer).score)

theorem inv_empty : Inv emptyMatchState := by
  refine ⟨by simp [emptyMatchState], by simp [emptyMatchState], ?_, ?_⟩
  · intro p hp; simp [emptyMatchState] at hp
  · intro j hj
    simp only [emptyMatchState, replayScores, List.foldl_nil]
    interval_cases j <;> rfl

theorem inv_start (names : List String) (prev : MatchState)
    (hlen : names.length = 4)
    (hall : names.all (fun n => n.trim != "") = true) :
    Inv (startMatch names prev) := by
  rw [startMatch, if_pos hall]
  refine ⟨by simpa using hlen, by simp, ?_, ?_⟩
  · intro p hp
    simp only [List.mem_map] at hp
    obtain ⟨n, hn, rfl⟩ := hp
    refine ⟨?_, by simp⟩
    have := List.all_eq_true.mp hall n hn
    simpa using this
  · intro j hj
    have hjlen : j < (names.map (fun n =>
        ({ name := n.trim, winners := 0, unforced_errors := 0, score := 0 } :
          PlayerStats))).length := by simpa using hlen ▸ hj
    have h1 : ((names.map (fun n =>
        ({ name := n.trim, winners := 0, unforced_errors := 0, score := 0 } :
          PlayerStats))).getD j dfltPlayer).score = 0 := by
      rw [List.getD_eq_getElem?_getD, List.getElem?_eq_getElem hjlen,
        Option.getD_some, List.getElem_map]
    simp only [replayScores, List.foldl_nil]
    rw [h1]
    interval_cases j <;> rfl

theorem getD_set_self (l : List Int) (i : Nat) (v : Int) (hi : i < l.length) :
    (l.set i v).getD i 0 = v := by
  rw [List.getD_eq_getElem?_getD, List.getElem?_set_self (by simpa using hi)]
  rfl

theorem getD_set_ne (l : List Int) (i j : Nat) (v : Int) (h : i ≠ j) :
    (l.set i v).getD j 0 = l.getD j 0 := by
  rw [List.getD_eq_getElem?_getD, List.getElem?_set_ne h,
    ← List.getD_eq_getElem?_getD]

/-- The player-roster update performed by `incrementStat`, isolated. -/
def incPlayer (pi : Nat) (k : StatKind) (index : Nat) (player : PlayerStats) :
    PlayerStats :=
  if index = pi then
    { player with
      winners := if k = .winners then player.winners + 1 else player.winners,
      unforced_errors :=
        if k = .unforced_errors then player.unforced_errors + 1
        else player.unforced_errors,
      score := player.score + (if k = .winners then 2 else -1) }
  else player

theorem incrementStat_players (s : MatchState) (pi : Nat) (k : StatKind)
    (ts : Nat) :
    (incrementStat pi k ts s).players = s.players.mapIdx (incPlayer pi k) := rfl

theorem incrementStat_statHistory (s : MatchState) (pi : Nat) (k : StatKind)
    (ts : Nat) :
    (incrementStat pi k ts s).statHistory = s.statHistory ++
      [{ point := s.statHistory.length + 1, playerIndex := pi,
         stat := k, timestamp := ts }] := rfl

theorem incrementStat_started (s : MatchState) (pi : Nat) (k : StatKind)
    (ts : Nat) :
    (incrementStat pi k ts s).isGameStarted = s.isGameStarted := rfl

theorem getD_eq_getElem {α : Type} (l : List α) (j : Nat) (d : α)
    (h : j < l.length) : l.getD j d = l[j] := by
  rw [List.getD_eq_getElem?_getD, List.getElem?_eq_getElem h, Option.getD_some]

theorem inv_increment (s : MatchState) (pi : Nat) (k : StatKind) (ts : Nat)
    (hs : Inv s) (hstart : s.isGameStarted = true) (hpi : pi < 4) :
    Inv (incrementStat pi k ts s) := by
  obtain ⟨h4, hempty, hscore, hreplay⟩ := hs
  have hlen : s.players.length = 4 := h4 hstart
  constructor
  · intro _
    simp [incrementStat_players, List.length_mapIdx, hlen]
  constructor
  · intro hfalse
    rw [incrementStat_started] at hfalse
    rw [hstart] at hfalse
    exact absurd hfalse (by simp)
  constructor
  · intro p hp
    rw [incrementStat_players, List.mem_iff_getElem] at hp
    obtain ⟨i, hi, hpe⟩ := hp
    have hilen : i < s.players.length := by
      simpa [List.length_mapIdx] using hi
    have hval : (s.players.mapIdx (incPlayer pi k))[i] =
        incPlayer pi k i (s.players.getD i dfltPlayer) := by
      rw [← getD_eq_getElem _ _ dfltPlayer hi]
      exact mapIdx_getD _ s.players i dfltPlayer hilen
    rw [hval] at hpe
    have hqmem : s.players.getD i dfltPlayer ∈ s.players := by
      rw [getD_eq_getElem _ _ _ hilen]
      exact List.getElem_mem hilen
    obtain ⟨hname, hsc⟩ := hscore _ hqmem
    rw [List.getD_eq_getElem?_getD] at hname hsc
    subst hpe
    constructor
    · by_cases hip : i = pi
      · subst hip
        simpa [incPlayer] using hname
      · simpa [incPlayer, hip] using hname
    · by_cases hip : i = pi
      · subst hip
        cases k <;> simp [incPlayer, hsc] <;> ring
      · simp [incPlayer, hip, hsc]
  · intro j hj
    have hrep : replayScores (incrementStat pi k ts s).statHistory =
        updScores (replayScores s.statHistory)
          { point := s.statHistory.length + 1, playerIndex := pi,
            stat := k, timestamp := ts } := by
      rw [incrementStat_statHistory, replayScores, List.foldl_append]
      rfl
    have hplen : (replayScores s.statHistory).length = 4 := replayScores_length _
    rw [hrep, incrementStat_players]
    rw [mapIdx_getD _ s.players j dfltPlayer (hlen ▸ hj)]
    by_cases hjp : j = pi
    · subst hjp
      rw [updScores, getD_set_self _ _ _ (hplen ▸ hj), hreplay j hj]
      simp [incPlayer]
    · rw [updScores, getD_set_ne _ _ _ _ (fun h => hjp h.symm), hreplay j hj]
      simp [incPlayer, if_neg hjp]

theorem reachable_inv (s : MatchState) (h : Reachable s) : Inv s := by
  induction h with
  | init => exact inv_empty
  | start names prev hlen hall _ _ => exact inv_start names prev hlen hall
  | increment s pi k ts _ hstart hpi ih => exact inv_increment s pi k ts ih hstart hpi
  | reset s _ _ => exact inv_empty

/-! Concrete witness state: the match started with players "A", "B", "C",
"D".  `String.trim` is defined by well-founded recursion, so its equations
are applied once by `rw` before `decide` finishes the evaluation. -/

theorem trim_A : "A".trim = "A" := by
  show Substring.toString _ = _
  simp only [String.trim, String.toSubstring, Substring.trim]
  rw [Substring.takeWhileAux]
  rw [Substring.takeRightWhileAux]
  decide

theorem trim_B : "B".trim = "B" := by
  show Substring.toString _ = _
  simp only [String.trim, String.toSubstring, Substring.trim]
  rw [Substring.takeWhileAux]
  rw [Substring.takeRightWhileAux]
  decide

theorem trim_C : "C".trim = "C" := by
  show Substring.toString _ = _
  simp only [String.trim, String.toSubstring, Substring.trim]
  rw [Substring.takeWhileAux]
  rw [Substring.takeRightWhileAux]
  decide

theorem trim_D : "D".trim = "D" := by
  show Substring.toString _ = _
  simp only [String.trim, String.toSubstring, Substring.trim]
  rw [Substring.takeWhileAux]
  rw [Substring.takeRightWhileAux]
  decide

theorem names_ABCD_valid :
    (["A", "B", "C", "D"].all (fun n => n.trim != "")) = true := by
  simp only [List.all_cons, List.all_nil, trim_A, trim_B, trim_C, trim_D]
  decide

/-- The started state with players "A", "B", "C", "D", written without
`String.trim` so that `decide` can evaluate statements about it. -/
def stateABCD : MatchState :=
  { players :=
      [{ name := "A", winners := 0, unforced_errors := 0, score := 0 },
       { name := "B", winners := 0, unforced_errors := 0, score := 0 },
       { name := "C", winners := 0, unforced_errors := 0, score := 0 },
       { name := "D", winners := 0, unforced_errors := 0, score := 0 }],
    isGameStarted := true,
    statHistory := [] }

theorem startMatch_ABCD :
    startMatch ["A", "B", "C", "D"] emptyMatchState = stateABCD := by
  rw [startMatch, if_pos names_ABCD_valid]
  simp only [List.map_cons, List.map_nil, trim_A, trim_B, trim_C, trim_D]
  rfl

theorem reachable_ABCD : Reachable stateABCD :=
  startMatch_ABCD ▸
    Reachable.start ["A", "B", "C", "D"] emptyMatchState rfl
      names_ABCD_valid Reachable.init

/-- C1: for every reachable MatchState and every player `p` in it,
`p.score = 2 * p.winners - p.unforced_errors`. -/
theorem score_invariant_reachable (s : MatchState) (h : Reachable s) :
    ∀ p ∈ s.players,
      p.score = 2 * (p.winners : Int) - (p.unforced_errors : Int) := by
  intro p hp
  exact ((reachable_inv s h).2.2.1 p hp).2

/-- Witness for C1: the invariant instantiated at a concrete reachable
state, a started match after one Winner for player 0 and one
UnforcedError for player 2. -/
theorem score_invariant_reachable_witness :
    ((incrementStat 2 .unforced_errors 20
        (incrementStat 0 .winners 10 stateABCD)).players.getD 0
          dfltPlayer).score =
      2 * (((incrementStat 2 .unforced_errors 20
          (incrementStat 0 .winners 10 stateABCD)).players.getD 0
            dfltPlayer).winners : Int) -
        (((incrementStat 2 .unforced_errors 20
          (incrementStat 0 .winners 10 stateABCD)).players.getD 0
            dfltPlayer).unforced_errors : Int) :=
  score_invariant_reachable _
    (Reachable.increment _ 2 .unforced_errors 20
      (Reachable.increment _ 0 .winners 10 reachable_ABCD rfl (by decide))
      rfl (by decide))
    _ (by decide)

/-- C5: applying one scoring event to a reachable started state changes
only the player at `playerIndex`: the matching counter goes up by one and
the score by `+2` (Winner) or `-1` (UnforcedError); the player's name and
every other player are unchanged. -/
theorem incrementStat_frame (s : MatchState) (pi : Nat) (k : StatKind)
    (ts : Nat) (h : Reachable s) (hstart : s.isGameStarted = true)
    (hpi : pi < 4) :
    ((incrementStat pi k ts s).players.getD pi dfltPlayer).name =
      (s.players.getD pi dfltPlayer).name ∧
    (k = .winners →
      ((incrementStat pi k ts s).players.getD pi dfltPlayer).winners =
        (s.players.getD pi dfltPlayer).winners + 1 ∧
      ((incrementStat pi k ts s).players.getD pi dfltPlayer).unforced_errors =
        (s.players.getD pi dfltPlayer).unforced_errors ∧
      ((incrementStat pi k ts s).players.getD pi dfltPlayer).score =
        (s.players.getD pi dfltPlayer).score + 2) ∧
    (k = .unforced_errors →
      ((incrementStat pi k ts s).players.getD pi dfltPlayer).winners =
        (s.players.getD pi dfltPlayer).winners ∧
      ((incrementStat pi k ts s).players.getD pi dfltPlayer).unforced_errors =
        (s.players.getD pi dfltPlayer).unforced_errors + 1 ∧
      ((incrementStat pi k ts s).players.getD pi dfltPlayer).score =
        (s.players.getD pi dfltPlayer).score - 1) ∧
    (∀ j : Nat, j < 4 → j ≠ pi →
      (incrementStat pi k ts s).players.getD j dfltPlayer =
        s.players.getD j dfltPlayer) := by
  have hlen : s.players.length = 4 := (reachable_inv s h).1 hstart
  have hmain : ∀ j : Nat, j < 4 →
      (incrementStat pi k ts s).players.getD j dfltPlayer =
        incPlayer pi k j (s.players.getD j dfltPlayer) := by
    intro j hj
    rw [incrementStat_players]
    exact mapIdx_getD _ s.players j dfltPlayer (hlen ▸ hj)
  refine ⟨?_, ?_, ?_, ?_⟩
  · rw [hmain pi hpi]; simp [incPlayer]
  · rintro rfl
    rw [hmain pi hpi]
    refine ⟨by simp [incPlayer], by simp [incPlayer], by simp [incPlayer]⟩
  · rintro rfl
    rw [hmain pi hpi]
    refine ⟨by simp [incPlayer], by simp [incPlayer], ?_⟩
    simp [incPlayer]
    ring
  · intro j hj hjp
    rw [hmain j hj]
    simp [incPlayer, hjp]

/-- Witness for C5 at player 1 of the concrete started state. -/
theorem incrementStat_frame_witness :
    stateABCD.isGameStarted = true ∧ 1 < 4 ∧
    (((incrementStat 1 .winners 7 stateABCD).players.getD 1 dfltPlayer).name =
        (stateABCD.players.getD 1 dfltPlayer).name ∧
      (StatKind.winners = .winners →
        ((incrementStat 1 .winners 7 stateABCD).players.getD 1
            dfltPlayer).winners =
          (stateABCD.players.getD 1 dfltPlayer).winners + 1 ∧
        ((incrementStat 1 .winners 7 stateABCD).players.getD 1
            dfltPlayer).unforced_errors =
          (stateABCD.players.getD 1 dfltPlayer).unforced_errors ∧
        ((incrementStat 1 .winners 7 stateABCD).players.getD 1
            dfltPlayer).score =
          (stateABCD.players.getD 1 dfltPlayer).score + 2) ∧
      (StatKind.winners = .unforced_errors →
        ((incrementStat 1 .winners 7 stateABCD).players.getD 1
            dfltPlayer).winners =
          (stateABCD.players.getD 1 dfltPlayer).winners ∧
        ((incrementStat 1 .winners 7 stateABCD).players.getD 1
            dfltPlayer).unforced_errors =
          (stateABCD.players.getD 1 dfltPlayer).unforced_errors + 1 ∧
        ((incrementStat 1 .winners 7 stateABCD).players.getD 1
            dfltPlayer).score =
          (stateABCD.players.getD 1 dfltPlayer).score - 1) ∧
      (∀ j : Nat, j < 4 → j ≠ 1 →
        (incrementStat 1 .winners 7 stateABCD).players.getD j dfltPlayer =
          stateABCD.players.getD j dfltPlayer)) :=
  ⟨rfl, by decide,
    incrementStat_frame stateABCD 1 .winners 7 reachable_ABCD rfl (by decide)⟩

/-- Folding a list of `(playerIndex, kind, timestamp)` scoring actions
over a state, each through `incrementStat`. -/
def applyOps (ops : List (Nat × StatKind × Nat)) (s : MatchState) :
    MatchState :=
  ops.foldl (fun st o => incrementStat o.1 o.2.1 o.2.2 st) s

theorem applyOps_append (l1 l2 : List (Nat × StatKind × Nat))
    (s : MatchState) :
    applyOps (l1 ++ l2) s = applyOps l2 (applyOps l1 s) :=
  List.foldl_append ..

theorem applyOps_log :
    ∀ (ops : List (Nat × StatKind × Nat)) (s : MatchState),
      (applyOps ops s).statHistory.map (fun e => e.point) =
        s.statHistory.map (fun e => e.point) ++
          List.range' (s.statHistory.length + 1) ops.length ∧
      (applyOps ops s).statHistory.length = s.statHistory.length + ops.length ∧
      s.statHistory <+: (applyOps ops s).statHistory := by
  intro ops
  induction ops with
  | nil => intro s; simp [applyOps]
  | cons o rest ih =>
    intro s
    have hstep : applyOps (o :: rest) s =
        applyOps rest (incrementStat o.1 o.2.1 o.2.2 s) := rfl
    obtain ⟨ih1, ih2, ih3⟩ := ih (incrementStat o.1 o.2.1 o.2.2 s)
    have hlog := incrementStat_statHistory s o.1 o.2.1 o.2.2
    refine ⟨?_, ?_, ?_⟩
    · rw [hstep, ih1, hlog]
      simp only [List.map_append, List.length_append, List.map_cons,
        List.map_nil, List.length_cons, List.range'_succ, List.length_nil]
      rw [List.append_assoc]
      simp [List.range'_succ]
    · rw [hstep, ih2, hlog]
      simp only [List.length_append, List.length_cons, List.length_nil,
        List.length_cons]
      omega
    · rw [hstep]
      refine List.IsPrefix.trans ?_ ih3
      rw [hlog]
      exact ⟨_, rfl⟩

/-- C6: starting from a match whose log is empty, any sequence of `N`
appends yields a log of length exactly `N` whose `point` values are
`1, 2, ..., N` in order (no gaps, no repeats), and the log after any
prefix of the appends is a prefix of the final log (earlier entries are
never mutated or removed). -/
theorem append_sequence_numbers (ops : List (Nat × StatKind × Nat))
    (s0 : MatchState) (h0 : s0.statHistory = []) :
    (applyOps ops s0).statHistory.length = ops.length ∧
    (applyOps ops s0).statHistory.map (fun e => e.point) =
      List.range' 1 ops.length ∧
    ∀ n : Nat, (applyOps (ops.take n) s0).statHistory <+:
      (applyOps ops s0).statHistory := by
  obtain ⟨h1, h2, _⟩ := applyOps_log ops s0
  refine ⟨by rw [h2, h0]; simp, by rw [h1, h0]; simp, ?_⟩
  intro n
  have hsplit : ops = ops.take n ++ ops.drop n := (List.take_append_drop n ops).symm
  conv_rhs => rw [hsplit]
  rw [applyOps_append]
  exact (applyOps_log (ops.drop n) (applyOps (ops.take n) s0)).2.2

/-- Witness for C6: two appends on the fresh started state. -/
theorem append_sequence_numbers_witness :
    stateABCD.statHistory = [] ∧
    ((applyOps [(0, .winners, 10), (2, .unforced_errors, 20)]
        stateABCD).statHistory.length = 2 ∧
      (applyOps [(0, .winners, 10), (2, .unforced_errors, 20)]
          stateABCD).statHistory.map (fun e => e.point) = List.range' 1 2 ∧
      ∀ n : Nat,
        (applyOps ([(0, .winners, 10), (2, .unforced_errors, 20)].take n)
            stateABCD).statHistory <+:
          (applyOps [(0, .winners, 10), (2, .unforced_errors, 20)]
              stateABCD).statHistory) :=
  ⟨rfl, append_sequence_numbers _ stateABCD rfl⟩

/-- C7: the two team scores always add up to the sum of all players'
scores (both sides are 0 before the match starts, since the roster is
empty and `getTeamStats` returns all-zero records). -/
theorem teamStats_sum (s : MatchState) (h : Reachable s) :
    (getTeamStats s 0).score + (getTeamStats s 1).score =
      (s.players.map (fun p => p.score)).sum := by
  obtain ⟨h4, hempty, _, _⟩ := reachable_inv s h
  cases hst : s.isGameStarted with
  | false =>
    obtain ⟨hp, _⟩ := hempty hst
    simp [getTeamStats, hst, hp]
  | true =>
    have hlen := h4 hst
    rcases hps : s.players with _ | ⟨a, _ | ⟨b, _ | ⟨c, _ | ⟨d, rest⟩⟩⟩⟩ <;>
      rw [hps] at hlen <;> simp at hlen
    subst hlen
    simp [getTeamStats, hst, hps]
    ring

/-- Witness for C7 at a concrete reachable started state. -/
theorem teamStats_sum_witness :
    (getTeamStats (incrementStat 0 .winners 10 stateABCD) 0).score +
        (getTeamStats (incrementStat 0 .winners 10 stateABCD) 1).score =
      ((incrementStat 0 .winners 10 stateABCD).players.map
        (fun p => p.score)).sum :=
  teamStats_sum _ (Reachable.increment _ 0 .winners 10 reachable_ABCD rfl
    (by decide))

theorem mapIdx_id_of_fix {α : Type} :
    ∀ (l : List α) (f : Nat → α → α),
      (∀ i x, i < l.length → f i x = x) → l.mapIdx f = l := by
  intro l
  induction l with
  | nil => intro f _; rfl
  | cons a as ih =>
    intro f hf
    rw [List.mapIdx_cons, hf 0 a (by simp)]
    rw [ih (fun i => f (i + 1)) (fun i x hi => hf (i + 1) x (by simpa using hi))]

theorem keyMap_index_lt (key : String) (a : Nat × StatKind)
    (h : keyMap key = some a) : a.1 < 4 := by
  rw [keyMap] at h
  repeat' split at h
  all_goals first
    | (injection h with h2; subst h2; decide)
    | exact absurd h (by simp)

/-- The `eventLog.length = sum of all counters` invariant from the spec,
relating the log to the per-player counters. -/
def countInv (s : MatchState) : Prop :=
  s.statHistory.length =
    (s.players.map (fun p => p.winners + p.unforced_errors)).sum

/-- C10: `incrementStat` performs no started-flag or bounds check.  When
`playerIndex` is at or beyond the roster length -- which covers both an
index outside `[0,3]` on a started four-player roster and any index on a
not-started empty roster -- it still appends a new entry with the next
`point` to `statHistory` while leaving the whole roster (hence every
counter and score) unchanged; being a total function it raises no error.
Consequently the `eventLog.length = sum of counters` invariant breaks in
exactly that situation, so it is preserved only because the callers (the
keyboard adapter and the on-screen buttons) respect the precondition:
`keyMap` yields only indices `< 4`, and `handleKeyPress` is the identity
on a not-started state. -/
theorem incrementStat_no_guard (s : MatchState) (pi : Nat) (k : StatKind)
    (ts : Nat) (hout : s.players.length ≤ pi) :
    (incrementStat pi k ts s).players = s.players ∧
    (incrementStat pi k ts s).statHistory = s.statHistory ++
      [{ point := s.statHistory.length + 1, playerIndex := pi,
         stat := k, timestamp := ts }] ∧
    (countInv s → ¬ countInv (incrementStat pi k ts s)) ∧
    (∀ key a, keyMap key = some a → a.1 < 4) ∧
    (∀ key ts2 s2, s2.isGameStarted = false →
      handleKeyPress key ts2 s2 = s2) := by
  have hplayers : (incrementStat pi k ts s).players = s.players := by
    rw [incrementStat_players]
    refine mapIdx_id_of_fix s.players _ (fun i x hi => ?_)
    have : i ≠ pi := Nat.ne_of_lt (Nat.lt_of_lt_of_le hi hout)
    simp [incPlayer, this]
  refine ⟨hplayers, incrementStat_statHistory s pi k ts, ?_, keyMap_index_lt, ?_⟩
  · intro hinv hinv2
    rw [countInv, incrementStat_statHistory, hplayers] at hinv2
    rw [countInv] at hinv
    simp only [List.length_append, List.length_cons, List.length_nil] at hinv2
    omega
  · intro key ts2 s2 hfalse
    simp [handleKeyPress, hfalse]

/-- Witness for C10: an out-of-range index (5) on the started four-player
state. -/
theorem incrementStat_no_guard_witness :
    stateABCD.players.length ≤ 5 ∧
    ((incrementStat 5 .winners 3 stateABCD).players = stateABCD.players ∧
      (incrementStat 5 .winners 3 stateABCD).statHistory =
        stateABCD.statHistory ++
          [{ point := stateABCD.statHistory.length + 1, playerIndex := 5,
             stat := .winners, timestamp := 3 }] ∧
      (countInv stateABCD → ¬ countInv (incrementStat 5 .winners 3 stateABCD)) ∧
      (∀ key a, keyMap key = some a → a.1 < 4) ∧
      (∀ key ts2 s2, s2.isGameStarted = false →
        handleKeyPress key ts2 s2 = s2)) :=
  ⟨by decide, incrementStat_no_guard stateABCD 5 .winners 3 (by decide)⟩

/-- The default log entry used with `List.getD`; never actually selected
in the theorems below. -/
def dfltEntry : StatEntry :=
  { point := 0, playerIndex := 0, stat := .winners, timestamp := 0 }

/-- The fallback chart key `matchState.players[i]?.name || 'Player i+1'`
(page.tsx lines 189-192): the player's name unless the slot is missing or
the name is the empty string (falsy). -/
def defaultName : Nat → String
  | 0 => "Player 1"
  | 1 => "Player 2"
  | 2 => "Player 3"
  | _ => "Player 4"

def chartName (s : MatchState) (i : Nat) : String :=
  match s.players[i]? with
  | some p => if p.name == "" then defaultName i else p.name
  | none => defaultName i

/-- One row of `getChartData`'s output (page.tsx lines 186-207): a
single JS object literal whose keys -- the literals `point` and `zero`
and the four computed display-name keys -- all share one namespace, in
literal order.  A later assignment to a duplicated key overwrites an
earlier one (so a player display-named "zero" or "point" shadows those
literal keys), modelled by `rowLookup` reading the pair list from the
right.  All values are JS numbers, embedded as `Int`. -/
def mkChartRow (s : MatchState) (pt : Nat) (scores : List Int) :
    List (String × Int) :=
  [("point", (pt : Int)), ("zero", 0),
   (chartName s 0, scores.getD 0 0), (chartName s 1, scores.getD 1 0),
   (chartName s 2, scores.getD 2 0), (chartName s 3, scores.getD 3 0)]

/-- One iteration of the `forEach` loop in `getChartData`
(page.tsx lines 196-208): update the running scores, push a row. -/
def chartStep (s : MatchState) (acc : List Int × List (List (String × Int)))
    (e : StatEntry) : List Int × List (List (String × Int)) :=
  (updScores acc.1 e, acc.2 ++ [mkChartRow s e.point (updScores acc.1 e)])

/-- `getChartData` (page.tsx lines 182-212): the baseline row plus one
row per log entry, with running scores replayed from the all-zero
array.  The `if (statHistory && length > 0)` guard is the same as folding
over the (possibly empty) list. -/
def getChartData (s : MatchState) : List (List (String × Int)) :=
  (s.statHistory.foldl (chartStep s)
    ([0, 0, 0, 0], [mkChartRow s 0 [0, 0, 0, 0]])).2

/-- Reading a key from a row object: the last occurrence of the key wins,
as with duplicate keys in a JS object literal. -/
def rowLookup (entries : List (String × Int)) (key : String) : Option Int :=
  (entries.reverse.find? (fun kv => kv.1 == key)).map (fun kv => kv.2)

theorem getD_map_range {β : Type} (f : Nat → β) (n k : Nat) (d : β)
    (hk : k < n) : ((List.range n).map f).getD k d = f k := by
  rw [List.getD_eq_getElem?_getD, List.getElem?_map, List.getElem?_range hk]
  rfl

theorem chart_aux (s : MatchState) :
    ∀ (log : List StatEntry) (scores : List Int)
      (acc : List (List (String × Int))),
      (log.foldl (chartStep s) (scores, acc)).2 =
        acc ++ (List.range log.length).map (fun k =>
          mkChartRow s ((log.getD k dfltEntry).point)
            ((log.take (k + 1)).foldl updScores scores)) := by
  intro log
  induction log with
  | nil => intro scores acc; simp
  | cons e rest ih =>
    intro scores acc
    rw [List.foldl_cons]
    have hstep : chartStep s (scores, acc) e =
        (updScores scores e,
          acc ++ [mkChartRow s e.point (updScores scores e)]) := rfl
    rw [hstep,
      ih (updScores scores e) (acc ++ [mkChartRow s e.point (updScores scores e)])]
    rw [List.length_cons, List.range_succ_eq_map]
    rw [List.map_cons, List.map_map, List.append_assoc, List.singleton_append]
    congr 1

theorem getChartData_eq (s : MatchState) :
    getChartData s = mkChartRow s 0 [0, 0, 0, 0] ::
      (List.range s.statHistory.length).map (fun k =>
        mkChartRow s ((s.statHistory.getD k dfltEntry).point)
          (replayScores (s.statHistory.take (k + 1)))) := by
  rw [getChartData, chart_aux s s.statHistory [0, 0, 0, 0]
    [mkChartRow s 0 [0, 0, 0, 0]], List.singleton_append]
  rfl

theorem rowLookup_mkChartRow (s : MatchState) (pt : Nat) (scores : List Int)
    (j : Nat) (hj : j < 4)
    (hd : ∀ i1 : Nat, i1 < 4 → ∀ i2 : Nat, i2 < 4 → i1 ≠ i2 →
      chartName s i1 ≠ chartName s i2) :
    rowLookup (mkChartRow s pt scores) (chartName s j) =
      some (scores.getD j 0) := by
  have hne : ∀ i1 i2 : Nat, i1 < 4 → i2 < 4 → i1 ≠ i2 →
      (chartName s i1 == chartName s i2) = false := fun i1 i2 h1 h2 h12 =>
    beq_eq_false_iff_ne.mpr (hd i1 h1 i2 h2 h12)
  interval_cases j
  · simp [rowLookup, mkChartRow, List.find?,
      hne 3 0 (by omega) (by omega) (by omega),
      hne 2 0 (by omega) (by omega) (by omega),
      hne 1 0 (by omega) (by omega) (by omega)]
  · simp [rowLookup, mkChartRow, List.find?,
      hne 3 1 (by omega) (by omega) (by omega),
      hne 2 1 (by omega) (by omega) (by omega)]
  · simp [rowLookup, mkChartRow, List.find?,
      hne 3 2 (by omega) (by omega) (by omega)]
  · simp [rowLookup, mkChartRow, List.find?]

theorem rowLookup_mkChartRow_zero (s : MatchState) (pt : Nat)
    (scores : List Int)
    (hz : ∀ i : Nat, i < 4 → chartName s i ≠ "zero") :
    rowLookup (mkChartRow s pt scores) "zero" = some 0 := by
  have h0 := beq_eq_false_iff_ne.mpr (hz 0 (by omega))
  have h1 := beq_eq_false_iff_ne.mpr (hz 1 (by omega))
  have h2 := beq_eq_false_iff_ne.mpr (hz 2 (by omega))
  have h3 := beq_eq_false_iff_ne.mpr (hz 3 (by omega))
  simp [rowLookup, mkChartRow, List.find?, h0, h1, h2, h3]

theorem rowLookup_mkChartRow_point (s : MatchState) (pt : Nat)
    (scores : List Int)
    (hp : ∀ i : Nat, i < 4 → chartName s i ≠ "point") :
    rowLookup (mkChartRow s pt scores) "point" = some (pt : Int) := by
  have h0 := beq_eq_false_iff_ne.mpr (hp 0 (by omega))
  have h1 := beq_eq_false_iff_ne.mpr (hp 1 (by omega))
  have h2 := beq_eq_false_iff_ne.mpr (hp 2 (by omega))
  have h3 := beq_eq_false_iff_ne.mpr (hp 3 (by omega))
  have hzp : (("zero" : String) == "point") = false := by decide
  simp [rowLookup, mkChartRow, List.find?, h0, h1, h2, h3, hzp]

theorem chartName_eq (s : MatchState) (h : Reachable s)
    (hstart : s.isGameStarted = true) (i : Nat) (hi : i < 4) :
    chartName s i = (s.players.getD i dfltPlayer).name := by
  have hlen : s.players.length = 4 := (reachable_inv s h).1 hstart
  have hi2 : i < s.players.length := hlen ▸ hi
  have hmem : s.players[i] ∈ s.players := List.getElem_mem hi2
  have hname := ((reachable_inv s h).2.2.1 _ hmem).1
  rw [chartName, List.getElem?_eq_getElem hi2, getD_eq_getElem _ _ _ hi2]
  simp [hname]

/-! A started match whose first player is display-named "zero".  Such a
state is reachable ("zero" survives the trim check), its four names are
pairwise distinct, yet in the chart rows the computed key `[name0]`
overwrites the literal `zero: 0` entry of the same object literal. -/

theorem trim_zero : "zero".trim = "zero" := by
  show Substring.toString _ = _
  simp only [String.trim, String.toSubstring, Substring.trim]
  rw [Substring.takeWhileAux]
  rw [Substring.takeRightWhileAux]
  decide

theorem names_zero_valid :
    (["zero", "B", "C", "D"].all (fun n => n.trim != "")) = true := by
  simp only [List.all_cons, List.all_nil, trim_zero, trim_B, trim_C, trim_D]
  decide

/-- The started state with players "zero", "B", "C", "D", written
without `String.trim` so that `decide` can evaluate statements about
it. -/
def stateZero : MatchState :=
  { players :=
      [{ name := "zero", winners := 0, unforced_errors := 0, score := 0 },
       { name := "B", winners := 0, unforced_errors := 0, score := 0 },
       { name := "C", winners := 0, unforced_errors := 0, score := 0 },
       { name := "D", winners := 0, unforced_errors := 0, score := 0 }],
    isGameStarted := true,
    statHistory := [] }

theorem startMatch_zero :
    startMatch ["zero", "B", "C", "D"] emptyMatchState = stateZero := by
  rw [startMatch, if_pos names_zero_valid]
  simp only [List.map_cons, List.map_nil, trim_zero, trim_B, trim_C, trim_D]
  rfl

theorem reachable_stateZero : Reachable stateZero :=
  startMatch_zero ▸
    Reachable.start ["zero", "B", "C", "D"] emptyMatchState rfl
      names_zero_valid Reachable.init

/-- C2 counterexample: the reachable started state with pairwise
distinct display names "zero", "B", "C", "D", after one Winner for
player 0, satisfies every hypothesis of the original claim; yet in row 1
the computed key for player 0's name overwrites the literal `zero: 0`
entry of the same object literal, so reading the row's `zero` key yields
the player's running score 2, not the claimed 0. -/
theorem chart_zero_key_counterexample :
    Reachable (incrementStat 0 .winners 10 stateZero) ∧
    (incrementStat 0 .winners 10 stateZero).isGameStarted = true ∧
    (∀ i1 : Nat, i1 < 4 → ∀ i2 : Nat, i2 < 4 → i1 ≠ i2 →
      ((incrementStat 0 .winners 10 stateZero).players.getD i1
          dfltPlayer).name ≠
        ((incrementStat 0 .winners 10 stateZero).players.getD i2
          dfltPlayer).name) ∧
    rowLookup ((getChartData (incrementStat 0 .winners 10 stateZero)).getD 1 [])
        "zero" = some 2 ∧
    rowLookup ((getChartData (incrementStat 0 .winners 10 stateZero)).getD 1 [])
        "zero" ≠ some 0 :=
  ⟨Reachable.increment _ 0 .winners 10 reachable_stateZero rfl (by decide),
    rfl, by decide, by decide, by decide⟩

/-- C2 (amended): for a reachable started state with pairwise distinct
display names, none of which is the literal string "zero" or "point"
(those computed keys would otherwise overwrite the literal `zero`/`point`
entries of the same row object), the chart series has
`statHistory.length + 1` rows; every row reads 0 under the `zero` key;
row 0 reads 0 under `point` and 0 under every player's name; row `k+1`
reads the `(k+1)`-th event's stored sequence number under `point` and,
under each player's name, that player's score after replaying the first
`k+1` events from the all-zero roster; and that replay agrees with the
incrementally maintained scores, so the last row matches the current
players' scores. -/
theorem chart_series_spec (s : MatchState) (h : Reachable s)
    (hstart : s.isGameStarted = true)
    (hd : ∀ i1 : Nat, i1 < 4 → ∀ i2 : Nat, i2 < 4 → i1 ≠ i2 →
      (s.players.getD i1 dfltPlayer).name ≠ (s.players.getD i2 dfltPlayer).name)
    (hz : ∀ i : Nat, i < 4 → (s.players.getD i dfltPlayer).name ≠ "zero")
    (hp : ∀ i : Nat, i < 4 → (s.players.getD i dfltPlayer).name ≠ "point") :
    (getChartData s).length = s.statHistory.length + 1 ∧
    (∀ i : Nat, i < (getChartData s).length →
      rowLookup ((getChartData s).getD i []) "zero" = some 0) ∧
    (rowLookup ((getChartData s).getD 0 []) "point" = some 0 ∧
      ∀ j : Nat, j < 4 →
        rowLookup ((getChartData s).getD 0 [])
          ((s.players.getD j dfltPlayer).name) = some 0) ∧
    (∀ k : Nat, k < s.statHistory.length →
      rowLookup ((getChartData s).getD (k + 1) []) "point" =
        some (((s.statHistory.getD k dfltEntry).point : Int)) ∧
      ∀ j : Nat, j < 4 →
        rowLookup ((getChartData s).getD (k + 1) [])
          ((s.players.getD j dfltPlayer).name) =
          some ((replayScores (s.statHistory.take (k + 1))).getD j 0)) ∧
    (∀ j : Nat, j < 4 →
      (replayScores s.statHistory).getD j 0 =
        (s.players.getD j dfltPlayer).score) := by
  have hdc : ∀ i1 : Nat, i1 < 4 → ∀ i2 : Nat, i2 < 4 → i1 ≠ i2 →
      chartName s i1 ≠ chartName s i2 := by
    intro i1 h1 i2 h2 h12
    rw [chartName_eq s h hstart i1 h1, chartName_eq s h hstart i2 h2]
    exact hd i1 h1 i2 h2 h12
  have hzc : ∀ i : Nat, i < 4 → chartName s i ≠ "zero" := by
    intro i hi
    rw [chartName_eq s h hstart i hi]
    exact hz i hi
  have hpc : ∀ i : Nat, i < 4 → chartName s i ≠ "point" := by
    intro i hi
    rw [chartName_eq s h hstart i hi]
    exact hp i hi
  have hget0 : (getChartData s).getD 0 [] = mkChartRow s 0 [0, 0, 0, 0] := by
    rw [getChartData_eq]; rfl
  have hgetk : ∀ k : Nat, k < s.statHistory.length →
      (getChartData s).getD (k + 1) [] =
        mkChartRow s ((s.statHistory.getD k dfltEntry).point)
          (replayScores (s.statHistory.take (k + 1))) := by
    intro k hk
    rw [getChartData_eq, List.getD_cons_succ]
    exact getD_map_range _ _ k [] hk
  refine ⟨?_, ?_, ⟨?_, ?_⟩, ?_, ?_⟩
  · rw [getChartData_eq]; simp
  · intro i hi
    cases i with
    | zero => rw [hget0]; exact rowLookup_mkChartRow_zero s 0 _ hzc
    | succ k =>
      have hk : k < s.statHistory.length := by
        rw [getChartData_eq] at hi; simpa using hi
      rw [hgetk k hk]
      exact rowLookup_mkChartRow_zero s _ _ hzc
  · rw [hget0]
    exact rowLookup_mkChartRow_point s 0 _ hpc
  · intro j hj
    rw [hget0, ← chartName_eq s h hstart j hj]
    have := rowLookup_mkChartRow s 0 [0, 0, 0, 0] j hj hdc
    rw [this]
    interval_cases j <;> rfl
  · intro k hk
    refine ⟨?_, ?_⟩
    · rw [hgetk k hk]
      exact rowLookup_mkChartRow_point s _ _ hpc
    · intro j hj
      rw [hgetk k hk, ← chartName_eq s h hstart j hj]
      exact rowLookup_mkChartRow s _ _ j hj hdc
  · exact (reachable_inv s h).2.2.2

/-- Witness for C2 (amended) at the started state after one Winner for
player 0: the names "A", "B", "C", "D" are pairwise distinct and none of
them is "zero" or "point". -/
theorem chart_series_spec_witness :
    (incrementStat 0 .winners 10 stateABCD).isGameStarted = true ∧
    (∀ i1 : Nat, i1 < 4 → ∀ i2 : Nat, i2 < 4 → i1 ≠ i2 →
      ((incrementStat 0 .winners 10 stateABCD).players.getD i1
          dfltPlayer).name ≠
        ((incrementStat 0 .winners 10 stateABCD).players.getD i2
          dfltPlayer).name) ∧
    (∀ i : Nat, i < 4 →
      ((incrementStat 0 .winners 10 stateABCD).players.getD i
        dfltPlayer).name ≠ "zero") ∧
    (∀ i : Nat, i < 4 →
      ((incrementStat 0 .winners 10 stateABCD).players.getD i
        dfltPlayer).name ≠ "point") ∧
    ((getChartData (incrementStat 0 .winners 10 stateABCD)).length =
        (incrementStat 0 .winners 10 stateABCD).statHistory.length + 1 ∧
      (∀ i : Nat, i < (getChartData (incrementStat 0 .winners 10 stateABCD)).length →
        rowLookup ((getChartData (incrementStat 0 .winners 10 stateABCD)).getD
          i []) "zero" = some 0) ∧
      (rowLookup ((getChartData (incrementStat 0 .winners 10 stateABCD)).getD
          0 []) "point" = some 0 ∧
        ∀ j : Nat, j < 4 →
          rowLookup ((getChartData (incrementStat 0 .winners 10 stateABCD)).getD
              0 [])
            (((incrementStat 0 .winners 10 stateABCD).players.getD j
              dfltPlayer).name) = some 0) ∧
      (∀ k : Nat, k < (incrementStat 0 .winners 10 stateABCD).statHistory.length →
        rowLookup ((getChartData (incrementStat 0 .winners 10 stateABCD)).getD
            (k + 1) []) "point" =
          some ((((incrementStat 0 .winners 10 stateABCD).statHistory.getD k
            dfltEntry).point : Int)) ∧
        ∀ j : Nat, j < 4 →
          rowLookup
            ((getChartData (incrementStat 0 .winners 10 stateABCD)).getD
              (k + 1) [])
            (((incrementStat 0 .winners 10 stateABCD).players.getD j
              dfltPlayer).name) =
            some ((replayScores
              ((incrementStat 0 .winners 10 stateABCD).statHistory.take
                (k + 1))).getD j 0)) ∧
      (∀ j : Nat, j < 4 →
        (replayScores (incrementStat 0 .winners 10 stateABCD).statHistory).getD
            j 0 =
          ((incrementStat 0 .winners 10 stateABCD).players.getD j
            dfltPlayer).score)) :=
  ⟨rfl, by decide, by decide, by decide,
    chart_series_spec _
      (Reachable.increment _ 0 .winners 10 reachable_ABCD rfl (by decide))
      rfl (by decide) (by decide) (by decide)⟩

/-- Shallow model of the JSON value universe.  A byte payload handed to
`JSON.parse` is modelled by its parse result `Option Json`: `none` for
undecodable bytes, `some j` for bytes decoding to `j`
(`JSON.parse(JSON.stringify(v)) = v` on this fragment, so the
stringify/parse pair is the identity between `Json` and the byte level).
All numbers in this application are integers (counters, scores,
`Date.now()` timestamps). -/
inductive Json where
  | null : Json
  | bool (b : Bool) : Json
  | num (n : Int) : Json
  | str (s : String) : Json
  | arr (elems : List Json) : Json
  | obj (fields : List (String × Json)) : Json

/-- Object field lookup; the last occurrence of a duplicated key wins,
as in a JS object literal. -/
def jLookup (fields : List (String × Json)) (k : String) : Option Json :=
  (fields.reverse.find? (fun kv => kv.1 == k)).map (fun kv => kv.2)

/-- JS truthiness of a JSON value (`NaN` cannot arise from this
application's data). -/
def jsTruthy : Json → Bool
  | .null => false
  | .bool b => b
  | .num n => n != 0
  | .str s => s != ""
  | .arr _ => true
  | .obj _ => true

def jsTruthyOpt : Option Json → Bool
  | none => false
  | some j => jsTruthy j

/-- Property access `v.k`: reading a property of `null` throws a
TypeError (modelled as `Except.error`); reading one of this
application's property names from any other non-object value yields
`undefined` (`none`). -/
def getProp : Json → String → Except Unit (Option Json)
  | .null, _ => .error ()
  | .obj fields, k => .ok (jLookup fields k)
  | _, _ => .ok none

/-- Total variant of property access, used to state conditions about
payloads; coincides with `getProp` away from `null`. -/
def propOf (j : Json) (k : String) : Option Json :=
  match j with
  | .obj fields => jLookup fields k
  | _ => none

theorem getProp_ne_null (j : Json) (k : String) (h : j ≠ .null) :
    getProp j k = .ok (propOf j k) := by
  cases j with
  | null => exact absurd rfl h
  | bool b => rfl
  | num n => rfl
  | str s => rfl
  | arr l => rfl
  | obj f => rfl

theorem ne_null_of_jsTruthy (j : Json) (h : jsTruthy j = true) : j ≠ .null := by
  intro he
  subst he
  exact absurd h (by decide)

/-- `Array.isArray` applied to a possibly-undefined value. -/
def isArrayOpt : Option Json → Bool
  | some (.arr _) => true
  | _ => false

/-- The condition of the `if` inside `importMatchData`'s `try` block
(page.tsx line 150): `importedData.matchState &&
importedData.matchState.players &&
Array.isArray(importedData.matchState.statHistory)` with `&&`
short-circuiting.  `importedData.matchState` is read again by the second
conjunct; the re-read returns the same value, so it is evaluated once
here.  A thrown TypeError propagates as `Except.error` to the
surrounding `catch`. -/
def importCheck (j : Json) : Except Unit Bool := do
  let ms ← getProp j "matchState"
  match ms with
  | none => return false
  | some msj =>
    if jsTruthy msj then do
      let pl ← getProp msj "players"
      if jsTruthyOpt pl then do
        let sh ← getProp msj "statHistory"
        return isArrayOpt sh
      else return false
    else return false

/-- The two user-visible failure alerts of the import handler. -/
inductive ImportError where
  | parseFailure : ImportError
  | invalidFormat : ImportError
deriving DecidableEq, Repr

/-- The import handler (page.tsx lines 146-161) applied to the parse
result of the selected file.  First component: the user-visible error,
if any (`parseFailure` is the `catch` branch's alert, reached both when
the bytes do not decode and when a TypeError is thrown inside the `try`;
`invalidFormat` is the `else` branch's alert).  Second component:
`some m` when `setMatchState(m)` is called with the payload's
`matchState` value, `none` when the in-memory state is not touched. -/
def importMatchData (parsed : Option Json) :
    Option ImportError × Option Json :=
  match parsed with
  | none => (some .parseFailure, none)
  | some j =>
    match importCheck j with
    | .error _ => (some .parseFailure, none)
    | .ok false => (some .invalidFormat, none)
    | .ok true => (none, propOf j "matchState")

def statName : StatKind → String
  | .winners => "winners"
  | .unforced_errors => "unforced_errors"

/-- The JSON value `JSON.stringify` writes for one player. -/
def encodePlayer (p : PlayerStats) : Json :=
  .obj [("name", .str p.name), ("winners", .num p.winners),
        ("unforced_errors", .num p.unforced_errors), ("score", .num p.score)]

/-- The JSON value `JSON.stringify` writes for one log entry. -/
def encodeEntry (e : StatEntry) : Json :=
  .obj [("point", .num e.point), ("playerIndex", .num e.playerIndex),
        ("stat", .str (statName e.stat)), ("timestamp", .num e.timestamp)]

/-- The JSON value `JSON.stringify` writes for the whole MatchState. -/
def encodeMatchState (s : MatchState) : Json :=
  .obj [("players", .arr (s.players.map encodePlayer)),
        ("isGameStarted", .bool s.isGameStarted),
        ("statHistory", .arr (s.statHistory.map encodeEntry))]

/-- `exportMatchData`'s payload (page.tsx lines 121-128), as parsed back
from the written file: `{ matchState, timestamp, version: '1.0' }`. -/
def exportMatchData (s : MatchState) (ts : String) : Json :=
  .obj [("matchState", encodeMatchState s), ("timestamp", .str ts),
        ("version", .str "1.0")]

/-! Reading a stored JSON object back as a `MatchState`.  The source
stores the raw parsed object; `decodeMatchState` re-interprets it, and
inverts `encodeMatchState` exactly (`decodeMatchState_encode`), so every
payload produced by `exportMatchData` reads back as the original
state. -/

def decodeString : Json → Option String
  | .str s => some s
  | _ => none

def decodeBool : Json → Option Bool
  | .bool b => some b
  | _ => none

def decodeNat : Json → Option Nat
  | .num n => some n.toNat
  | _ => none

def decodeInt : Json → Option Int
  | .num n => some n
  | _ => none

def decodeStat : Json → Option StatKind
  | .str s =>
    if s == "winners" then some .winners
    else if s == "unforced_errors" then some .unforced_errors
    else none
  | _ => none

def decodePlayer (j : Json) : Option PlayerStats :=
  match j with
  | .obj f => do
    let nm ← (jLookup f "name").bind decodeString
    let w ← (jLookup f "winners").bind decodeNat
    let ue ← (jLookup f "unforced_errors").bind decodeNat
    let sc ← (jLookup f "score").bind decodeInt
    some { name := nm, winners := w, unforced_errors := ue, score := sc }
  | _ => none

def decodeEntry (j : Json) : Option StatEntry :=
  match j with
  | .obj f => do
    let pt ← (jLookup f "point").bind decodeNat
    let pi ← (jLookup f "playerIndex").bind decodeNat
    let st ← (jLookup f "stat").bind decodeStat
    let ts ← (jLookup f "timestamp").bind decodeNat
    some { point := pt, playerIndex := pi, stat := st, timestamp := ts }
  | _ => none

def decodeList {α : Type} (dec : Json → Option α) : List Json → Option (List α)
  | [] => some []
  | j :: rest => do
    let a ← dec j
    let as ← decodeList dec rest
    some (a :: as)

def decodeMatchState (j : Json) : Option MatchState :=
  match j with
  | .obj f => do
    let pj ← jLookup f "players"
    let ps ← match pj with
      | .arr l => decodeList decodePlayer l
      | _ => none
    let gj ← jLookup f "isGameStarted"
    let g ← decodeBool gj
    let hj ← jLookup f "statHistory"
    let hs ← match hj with
      | .arr l => decodeList decodeEntry l
      | _ => none
    some { players := ps, isGameStarted := g, statHistory := hs }
  | _ => none

theorem decodePlayer_encode (p : PlayerStats) :
    decodePlayer (encodePlayer p) = some p := rfl

theorem decodeEntry_encode (e : StatEntry) :
    decodeEntry (encodeEntry e) = some e := by
  cases e with
  | mk pt pi st ts => cases st <;> rfl

theorem decodeList_map {α : Type} (dec : Json → Option α) (enc : α → Json)
    (hinv : ∀ x, dec (enc x) = some x) :
    ∀ l : List α, decodeList dec (l.map enc) = some l := by
  intro l
  induction l with
  | nil => rfl
  | cons a as ih =>
    rw [List.map_cons, decodeList, hinv a, ih]
    rfl

theorem decodeMatchState_encode (s : MatchState) :
    decodeMatchState (encodeMatchState s) = some s := by
  show (do
    let ps ← decodeList decodePlayer (s.players.map encodePlayer)
    let g ← decodeBool (.bool s.isGameStarted)
    let hs ← decodeList decodeEntry (s.statHistory.map encodeEntry)
    some { players := ps, isGameStarted := g, statHistory := hs }) = some s
  rw [decodeList_map decodePlayer encodePlayer decodePlayer_encode,
    decodeList_map decodeEntry encodeEntry decodeEntry_encode]
  rfl

/-- The import handler as a transition on the in-memory `MatchState`.
On success the source stores the raw parsed object; every payload
produced by `exportMatchData` decodes (`decodeMatchState_encode`), and
only such payloads and failing payloads occur in the theorems below, so
the `getD prev` fallback is never exercised. -/
def applyImport (parsed : Option Json) (prev : MatchState) :
    Option ImportError × MatchState :=
  match importMatchData parsed with
  | (err, none) => (err, prev)
  | (err, some msj) => (err, (decodeMatchState msj).getD prev)

/-- C3: importing the payload produced by exporting a reachable state
succeeds (no error) and replaces the in-memory state with exactly the
exported state, field for field, whatever the previous state was. -/
theorem export_import_roundtrip (s : MatchState) (_h : Reachable s) :
    ∀ (ts : String) (prev : MatchState),
      applyImport (some (exportMatchData s ts)) prev = (none, s) := by
  intro ts prev
  have h1 : importMatchData (some (exportMatchData s ts)) =
      (none, some (encodeMatchState s)) := rfl
  rw [applyImport, h1]
  show ((none : Option ImportError),
    (decodeMatchState (encodeMatchState s)).getD prev) = (none, s)
  rw [decodeMatchState_encode]
  rfl

/-- Witness for C3 at the concrete started state. -/
theorem export_import_roundtrip_witness :
    applyImport (some (exportMatchData stateABCD "2025-01-01")) emptyMatchState =
      (none, stateABCD) :=
  export_import_roundtrip stateABCD reachable_ABCD "2025-01-01" emptyMatchState

/-- C4 counterexample: the byte payload `"null"` is decodable (it decodes
to JSON `null`) and the decoded payload has no `matchState` field, so the
claim requires `InvalidFormat`; the code instead throws a TypeError on
`importedData.matchState` inside the `try` block and the `catch` raises
the parse-failure alert.  The state is still left unchanged. -/
theorem import_null_counterexample :
    applyImport (some Json.null) emptyMatchState =
      (some ImportError.parseFailure, emptyMatchState) ∧
    some ImportError.parseFailure ≠ some ImportError.invalidFormat :=
  ⟨rfl, by decide⟩

/-- C4 (amended): undecodable bytes give `ParseFailure`; a payload that
decodes to `null` also gives `ParseFailure` (property access on `null`
throws inside the `try`, landing in the same `catch` as a parse error);
any other decoded payload lacking a `matchState` field, or whose
`matchState` lacks a `players` field, or whose `matchState.statHistory`
is not an array, gives `InvalidFormat`; and in every failure case the
in-memory MatchState is left exactly as it was. -/
theorem import_failure_behavior (j : Json) (prev : MatchState) :
    (applyImport none prev = (some .parseFailure, prev)) ∧
    (applyImport (some .null) prev = (some .parseFailure, prev)) ∧
    (j ≠ .null →
      (propOf j "matchState" = none ∨
        (∃ m, propOf j "matchState" = some m ∧ propOf m "players" = none) ∨
        (∃ m, propOf j "matchState" = some m ∧
          isArrayOpt (propOf m "statHistory") = false)) →
      applyImport (some j) prev = (some .invalidFormat, prev)) := by
  refine ⟨rfl, rfl, ?_⟩
  intro hne hbad
  have hcheck : importCheck j = .ok false := by
    rw [importCheck]
    rw [getProp_ne_null j "matchState" hne]
    rcases hbad with hnone | ⟨m, hm, hpl⟩ | ⟨m, hm, hsh⟩
    · rw [hnone]
      rfl
    · rw [hm]
      show (if jsTruthy m then _ else pure false) = Except.ok false
      by_cases ht : jsTruthy m
      · rw [if_pos ht]
        rw [getProp_ne_null m "players" (ne_null_of_jsTruthy m ht), hpl]
        rfl
      · rw [if_neg ht]
        rfl
    · rw [hm]
      show (if jsTruthy m then _ else pure false) = Except.ok false
      by_cases ht : jsTruthy m
      · rw [if_pos ht]
        rw [getProp_ne_null m "players" (ne_null_of_jsTruthy m ht)]
        show (Except.ok (propOf m "players") >>= fun pl =>
          if jsTruthyOpt pl then _ else pure false) = Except.ok false
        by_cases hp : jsTruthyOpt (propOf m "players")
        · show (if jsTruthyOpt (propOf m "players") then _ else pure false) =
            Except.ok false
          rw [if_pos hp]
          rw [getProp_ne_null m "statHistory" (ne_null_of_jsTruthy m ht)]
          show Except.ok (isArrayOpt (propOf m "statHistory")) = Except.ok false
          rw [hsh]
        · show (if jsTruthyOpt (propOf m "players") then _ else pure false) =
            Except.ok false
          rw [if_neg hp]
          rfl
      · rw [if_neg ht]
        rfl
  rw [applyImport, importMatchData, hcheck]

/-- Witness for C4 (amended): the decodable payload `{}` (an object with
no fields) yields `InvalidFormat` and leaves the previous state intact. -/
theorem import_failure_behavior_witness :
    (Json.obj [] ≠ Json.null) ∧
    (propOf (Json.obj []) "matchState" = none ∨
      (∃ m, propOf (Json.obj []) "matchState" = some m ∧
        propOf m "players" = none) ∨
      (∃ m, propOf (Json.obj []) "matchState" = some m ∧
        isArrayOpt (propOf m "statHistory") = false)) ∧
    applyImport (some (Json.obj [])) emptyMatchState =
      (some ImportError.invalidFormat, emptyMatchState) :=
  ⟨fun h => Json.noConfusion h, Or.inl rfl,
    (import_failure_behavior (Json.obj []) emptyMatchState).2.2
      (fun h => Json.noConfusion h) (Or.inl rfl)⟩

/-- The browser-visible application state: the React `matchState` and
the contents of the `localStorage` key `'padelMatch'`, stored as the
parsed value of the JSON string it holds (`none` = key absent). -/
structure AppState where
  mem : MatchState
  store : Option Json

/-- The persist effect (page.tsx lines 42-44): after every change of
`matchState`, React re-runs this effect, which writes
`JSON.stringify(matchState)` under the key. -/
def persistEffect (a : AppState) : AppState :=
  { a with store := some (encodeMatchState a.mem) }

/-- A completed import interaction (page.tsx lines 146-161), observed
after React has flushed the state update: on success the handler stores
the payload's `matchState` in memory, then asks `window.confirm` and,
only when accepted, writes the payload to the store immediately; the
persist effect then runs in any case, because the in-memory state
changed.  On failure no state changes, so the effect does not re-run
and both components stay as they were. -/
def importComplete (parsed : Option Json) (confirmAccept : Bool)
    (a : AppState) : AppState × Option ImportError :=
  match importMatchData parsed with
  | (err, none) => (a, err)
  | (err, some msj) =>
    let mem2 := (decodeMatchState msj).getD a.mem
    let store2 : Option Json := if confirmAccept then some msj else a.store
    (persistEffect { mem := mem2, store := store2 }, err)

/-- C8 counterexample: import an exported started state over an
application whose durable key is absent and DECLINE the confirm dialog;
the durable store afterwards holds the imported state (the persist
effect wrote it), not what it held before the import (nothing). -/
theorem import_decline_store_counterexample :
    (importComplete (some (exportMatchData stateABCD "t")) false
        { mem := emptyMatchState, store := none }).1.store =
      some (encodeMatchState stateABCD) ∧
    some (encodeMatchState stateABCD) ≠ (none : Option Json) :=
  ⟨rfl, fun h => Option.noConfusion h⟩

/-- C8 (amended): on a successful import of an exported state the
in-memory state is replaced immediately, and once the persist effect has
run the durable store holds the imported state whether or not the user
confirmed: confirmation only adds an immediate identical write, and
declining does not preserve the prior store contents. -/
theorem import_persists_regardless (s : MatchState) (ts : String)
    (confirmAccept : Bool) (a : AppState) :
    importComplete (some (exportMatchData s ts)) confirmAccept a =
      ({ mem := s, store := some (encodeMatchState s) }, none) := by
  have h1 : importMatchData (some (exportMatchData s ts)) =
      (none, some (encodeMatchState s)) := rfl
  rw [importComplete, h1]
  simp [persistEffect, decodeMatchState_encode]

/-- `resetMatch` (page.tsx lines 113-119) combined with the persist
effect: when confirmed, the handler resets the in-memory state and
removes the durable key, and the effect then re-writes the serialized
empty state; when declined nothing happens. -/
def resetMatch (confirmAccept : Bool) (a : AppState) : AppState :=
  if confirmAccept then
    persistEffect { mem := emptyMatchState, store := none }
  else a

/-- C9: after a confirmed reset -- whatever happened before -- the
in-memory MatchState is exactly the empty not-started state
`{players: [], started: false, eventLog: []}`, and the durable-store key
holds nothing beyond that empty state: the handler removed the key, and
the persist effect re-wrote it with the serialized empty/not-started
state, which the claim declares equivalent to the key being absent. -/
theorem reset_clears_state (a : AppState) :
    (resetMatch true a).mem = emptyMatchState ∧
    ((resetMatch true a).store = none ∨
      (resetMatch true a).store = some (encodeMatchState emptyMatchState)) :=
  ⟨rfl, Or.inr rfl⟩

end Padel
